import Mathlib

/-!
Shallow embedding of the DeFi credit-scoring pipeline
(`src/feature_engineer.py`, `src/scorer.py`, `src/model_trainer.py`).

Machine floats are modelled as exact rationals (ℚ).  A float `NaN`
produced by a pandas reduction (e.g. the sample standard deviation of a
single value) is modelled as `none` of an `Option ℚ`; the explicit
`float('inf')` sentinels of the source are likewise `none` in their own
clearly-marked fields.  The floating-point square root inside
`pandas.Series.std` is modelled by the exact rational stand-in `ratSqrt`;
no theorem below depends on its numeric values, only on definedness.
-/

namespace DefiCredit

-- Batteries marks the ℚ field operations `@[irreducible]`; witnesses below
-- evaluate concrete runs of the embedded code with `decide`, which needs
-- them unfolded.
attribute [local semireducible] Rat.add Rat.mul Rat.sub Rat.inv

/-- Exact-rational stand-in for the floating square root used inside
`pandas.Series.std`.  Exact whenever `q.num * q.den` is a perfect square
(in particular `ratSqrt 0 = 0`); theorems below never depend on its value
beyond totality. -/
def ratSqrt (q : ℚ) : ℚ :=
  if q ≤ 0 then 0 else (Nat.sqrt (q.num.toNat * q.den) : ℚ) / (q.den : ℚ)

/-- Embeds `pandas.Series.mean`: arithmetic mean, `NaN` (`none`) on an empty series. -/
def meanQ (l : List ℚ) : Option ℚ :=
  if l.isEmpty then none else some (l.sum / (l.length : ℚ))

/-- Embeds `pandas.Series.var` with the default `ddof = 1` (sample variance):
`NaN` (`none`) when fewer than two samples are present. -/
def sampleVar (l : List ℚ) : Option ℚ :=
  if l.length < 2 then none
  else
    let m := l.sum / (l.length : ℚ)
    some (((l.map (fun x => (x - m) ^ 2)).sum) / ((l.length : ℚ) - 1))

/-- Embeds `pandas.Series.std` with the default `ddof = 1` (sample standard
deviation): `NaN` (`none`) when fewer than two samples are present. -/
def sampleStd (l : List ℚ) : Option ℚ :=
  (sampleVar l).map ratSqrt

/-- Embeds `pandas.Series.min`: `NaN` (`none`) on an empty series. -/
def minQ : List ℚ → Option ℚ
  | [] => none
  | x :: xs =>
    match minQ xs with
    | none => some x
    | some m => some (min x m)

/-- Embeds `pandas.Series.max`: `NaN` (`none`) on an empty series. -/
def maxQ : List ℚ → Option ℚ
  | [] => none
  | x :: xs =>
    match maxQ xs with
    | none => some x
    | some m => some (max x m)

/-- Embeds `pandas.Series.median`: sort, then middle element (odd length) or the
mean of the two middle elements (even length); `NaN` (`none`) on empty. -/
def medianQ (l : List ℚ) : Option ℚ :=
  if l.isEmpty then none
  else
    let s := l.insertionSort (· ≤ ·)
    let n := l.length
    if n % 2 = 1 then some (s.getD (n / 2) 0)
    else some ((s.getD (n / 2 - 1) 0 + s.getD (n / 2) 0) / 2)

/-- Worker of `uniqueFirst`: keep the first occurrence of each value not
already in `seen`. -/
def uniqueFirstAux {α : Type} [DecidableEq α] (seen : List α) : List α → List α
  | [] => []
  | x :: xs =>
    if x ∈ seen then uniqueFirstAux seen xs
    else x :: uniqueFirstAux (x :: seen) xs

/-- First occurrences of each distinct value, in input order:
`pandas.Series.unique` / the distinct keys of a `groupby`. -/
def uniqueFirst {α : Type} [DecidableEq α] (l : List α) : List α :=
  uniqueFirstAux [] l

/-- The largest multiplicity among the values of `l`
(`value_counts().iloc[0]`); `0` on an empty list. -/
def modeCount {α : Type} [DecidableEq α] (l : List α) : ℕ :=
  ((uniqueFirst l).map (fun a => l.count a)).foldr max 0

/-- A value of `l` attaining the largest multiplicity
(`value_counts().index[0]`), taking the earliest first occurrence among
ties; `dflt` on an empty list.  pandas leaves the tie order to its sort
algorithm; no claim depends on the tie-break. -/
def modeValue {α : Type} [DecidableEq α] (l : List α) (dflt : α) : α :=
  match (uniqueFirst l).find? (fun a => l.count a = modeCount l) with
  | some a => a
  | none => dflt

/-- Successive differences of a list (`Series.diff().dropna()`):
`gapsOf [a, b, c] = [b - a, c - b]`. -/
def gapsOf (ts : List ℚ) : List ℚ :=
  List.zipWith (· - ·) ts.tail ts

/-- Embeds `np.clip(x, lo, hi)` on scalars. -/
def npClip (x lo hi : ℚ) : ℚ :=
  min (max x lo) hi

/-!  ## Score Calibrator (`src/scorer.py`)  -/

/-- Embeds `np.percentile(xs, q)` with the default linear interpolation:
with `s` the sorted data and `h = q * (n - 1) / 100`, the value is
`s[⌊h⌋] + (h - ⌊h⌋) * (s[⌈h⌉] - s[⌊h⌋])`, the ceiling written as
`-⌊-h⌋` (the definitional form of `⌈h⌉` here, kernel-computable).
Meaningful only on a non-empty `xs` (NumPy raises on an empty input;
callers guard). -/
def npPercentile (xs : List ℚ) (q : ℕ) : ℚ :=
  let s := xs.insertionSort (· ≤ ·)
  let h : ℚ := (q : ℚ) * ((xs.length : ℚ) - 1) / 100
  let i : ℕ := (Rat.floor h).toNat
  let j : ℕ := (-Rat.floor (-h)).toNat
  s.getD i 0 + (h - (i : ℚ)) * (s.getD j 0 - s.getD i 0)

/-- Embeds `np.percentile(raw_scores, np.arange(0, 101, 1))`: the 101 percentile
breakpoints 0..100 of `scorer.py` line 73. -/
def percentileBreakpoints (xs : List ℚ) : List ℚ :=
  (List.range 101).map (npPercentile xs)

/-- Embeds `np.searchsorted(a, v)` with the default `side='left'`: the insertion
index of `v` in the sorted list `a`, i.e. the number of elements of `a`
strictly below `v`. -/
def searchsortedLeft (a : List ℚ) (v : ℚ) : ℕ :=
  a.countP (fun x => decide (x < v))

/-- Embeds `WalletScorer._calibrate_scores` (`scorer.py` lines 68-87): percentile
breakpoints of the whole population, per-score percentile rank via
`searchsorted`, linear map `rank ↦ 1000 * rank`, final `np.clip` to
[0, 1000].  `np.percentile` raises on an empty population, modelled as
`none`. -/
def calibrateScores (raw : List ℚ) : Option (List ℚ) :=
  if raw.isEmpty then none
  else
    let ps := percentileBreakpoints raw
    some (raw.map (fun score =>
      let percentileRank : ℚ := (searchsortedLeft ps score : ℚ) / 100
      npClip (1000 * percentileRank) 0 1000))

/-!  ## Feature Extractor (`src/feature_engineer.py`)  -/

/-- One row of the processed transaction DataFrame: one ledger action of
one wallet.  `timestamp` is an instant in seconds; `hour` is the derived
`dt.hour` column added by the upstream `DataProcessor._add_derived_fields`.
`asset` / `gasUsed` carry the optional columns; whether those columns are
present at all is a property of the whole frame, carried by `Env`. -/
structure Event where
  wallet : String
  action : String
  amount : ℚ
  timestamp : ℚ
  hour : ℤ
  asset : String
  gasUsed : ℚ
  deriving Repr, DecidableEq

/-- Frame-level context of an extractor run: the calendar maps used by the
pandas accessors `dt.date`, `dt.isocalendar().week` and `dt.month`
(abstracted — no claim depends on calendar arithmetic), and whether the
optional `asset` / `gas_used` columns are present in the DataFrame. -/
structure Env where
  dateOf : ℚ → ℤ
  weekOf : ℚ → ℤ
  monthOf : ℚ → ℤ
  hasAssetCol : Bool
  hasGasCol : Bool

/-- Embeds `(t1 - t2).days` on pandas Timestamps: whole days, floored.
(`Rat.floor` is the kernel-computable floor on ℚ.) -/
def timedeltaDays (t1 t2 : ℚ) : ℤ :=
  Rat.floor ((t1 - t2) / 86400)

/-- The feature dictionary built by `FeatureEngineer._extract_wallet_features`:
every enumerated key, in source order.  Fields whose pandas computation can
produce a float `NaN` are `Option ℚ` (with `none` = `NaN`); the two
explicit `float('inf')` sentinels are `Option ℚ` with `none` = infinity. -/
structure FeatureRecord where
  total_transactions : ℕ
  unique_days_active : ℕ
  deposit_count : ℕ
  deposit_ratio : ℚ
  borrow_count : ℕ
  borrow_ratio : ℚ
  repay_count : ℕ
  repay_ratio : ℚ
  redeemunderlying_count : ℕ
  redeemunderlying_ratio : ℚ
  liquidationcall_count : ℕ
  liquidationcall_ratio : ℚ
  total_amount : ℚ
  avg_amount : Option ℚ
  median_amount : Option ℚ
  std_amount : Option ℚ
  min_amount : Option ℚ
  max_amount : Option ℚ
  amount_cv : Option ℚ
  avg_time_between_transactions : ℚ
  std_time_between_transactions : Option ℚ
  min_time_between_transactions : ℚ
  max_time_between_transactions : ℚ
  activity_consistency : Option ℚ
  max_daily_transactions : ℚ
  avg_daily_transactions : ℚ
  activity_hours_spread : ℕ
  most_active_hour : ℤ
  liquidation_count : ℕ
  liquidation_ratio : ℚ
  days_since_last_liquidation : ℤ
  total_borrowed : ℚ
  total_repaid : ℚ
  repayment_ratio : ℚ
  outstanding_debt : ℚ
  leverage_ratio : ℚ
  deposit_to_borrow_ratio : Option ℚ
  unique_assets : ℕ
  asset_concentration : ℚ
  asset_diversity_score : ℚ
  position_changes : ℕ
  deposit_withdrawal_ratio : Option ℚ
  account_age_days : ℤ
  transactions_per_day : ℚ
  days_since_last_activity : ℤ
  weekly_activity_variance : ℚ
  monthly_activity_variance : ℚ
  time_regularity_score : ℚ
  most_common_interval_ratio : ℚ
  amount_uniformity_score : ℚ
  gas_optimization_score : ℚ
  transaction_complexity : ℚ

/-- Embeds `FeatureEngineer._extract_wallet_features` and its six helpers, as one
record builder.  `now` is the evaluation instant read by `datetime.now()`
in `_temporal_features` (the source's only wall-clock read), made an
explicit parameter.  Each `let` block mirrors one helper method. -/
def extractWalletFeatures (env : Env) (now : ℚ) (data : List Event) : FeatureRecord :=
  -- _basic_transaction_features
  let n := data.length
  let amounts := data.map Event.amount
  let amountMean := amounts.sum / (n : ℚ)
  let stdAmt := sampleStd amounts
  -- _behavioral_pattern_features
  let tsSorted := ((data.insertionSort (fun a b => a.timestamp ≤ b.timestamp)).map
    Event.timestamp)
  let timeDiffs := gapsOf tsSorted
  let dates := data.map (fun e => env.dateOf e.timestamp)
  let dailyCounts : List ℚ := (uniqueFirst dates).map (fun d => (dates.count d : ℚ))
  let hours := data.map Event.hour
  -- _risk_assessment_features
  let liquidations := data.filter (fun e => e.action = "liquidationcall")
  let borrows := data.filter (fun e => e.action = "borrow")
  let repays := data.filter (fun e => e.action = "repay")
  let deposits := data.filter (fun e => e.action = "deposit")
  let totalBorrowed := (borrows.map Event.amount).sum
  let totalRepaid := (repays.map Event.amount).sum
  let totalDeposited := (deposits.map Event.amount).sum
  -- _portfolio_management_features
  let assets := data.map Event.asset
  let withdrawals := data.filter (fun e => e.action = "redeemunderlying")
  -- _temporal_features
  let firstTx := (minQ (data.map Event.timestamp)).getD 0
  let lastTx := (maxQ (data.map Event.timestamp)).getD 0
  let accountAge := timedeltaDays lastTx firstTx + 1
  let weeks := data.map (fun e => env.weekOf e.timestamp)
  let months := data.map (fun e => env.monthOf e.timestamp)
  let weeklyCounts : List ℚ := (uniqueFirst weeks).map (fun w => (weeks.count w : ℚ))
  let monthlyCounts : List ℚ := (uniqueFirst months).map (fun m => (months.count m : ℚ))
  -- _bot_detection_features
  let gasVals := data.map Event.gasUsed
  { total_transactions := n
    unique_days_active := (uniqueFirst dates).length
    deposit_count := deposits.length
    deposit_ratio := if 0 < n then (deposits.length : ℚ) / (n : ℚ) else 0
    borrow_count := borrows.length
    borrow_ratio := if 0 < n then (borrows.length : ℚ) / (n : ℚ) else 0
    repay_count := repays.length
    repay_ratio := if 0 < n then (repays.length : ℚ) / (n : ℚ) else 0
    redeemunderlying_count := withdrawals.length
    redeemunderlying_ratio := if 0 < n then (withdrawals.length : ℚ) / (n : ℚ) else 0
    liquidationcall_count := liquidations.length
    liquidationcall_ratio := if 0 < n then (liquidations.length : ℚ) / (n : ℚ) else 0
    total_amount := amounts.sum
    avg_amount := meanQ amounts
    median_amount := medianQ amounts
    std_amount := stdAmt
    min_amount := minQ amounts
    max_amount := maxQ amounts
    amount_cv :=
      if 0 < amountMean then stdAmt.map (fun s => s / amountMean) else some 0
    avg_time_between_transactions :=
      if 1 < n then timeDiffs.sum / (timeDiffs.length : ℚ) else 0
    std_time_between_transactions := if 1 < n then sampleStd timeDiffs else some 0
    min_time_between_transactions := if 1 < n then (minQ timeDiffs).getD 0 else 0
    max_time_between_transactions := if 1 < n then (maxQ timeDiffs).getD 0 else 0
    activity_consistency := (sampleStd dailyCounts).map (fun s => 1 / (s + 1))
    max_daily_transactions :=
      if dailyCounts.isEmpty then 0 else (maxQ dailyCounts).getD 0
    avg_daily_transactions :=
      if dailyCounts.isEmpty then 0 else dailyCounts.sum / (dailyCounts.length : ℚ)
    activity_hours_spread := (uniqueFirst hours).length
    most_active_hour := if hours.isEmpty then 0 else modeValue hours 0
    liquidation_count := liquidations.length
    liquidation_ratio := if 0 < n then (liquidations.length : ℚ) / (n : ℚ) else 0
    days_since_last_liquidation :=
      if liquidations.isEmpty then 9999
      else timedeltaDays lastTx ((maxQ (liquidations.map Event.timestamp)).getD 0)
    total_borrowed := totalBorrowed
    total_repaid := totalRepaid
    repayment_ratio := if 0 < totalBorrowed then totalRepaid / totalBorrowed else 1
    outstanding_debt := max 0 (totalBorrowed - totalRepaid)
    leverage_ratio := if 0 < totalDeposited then totalBorrowed / totalDeposited else 0
    deposit_to_borrow_ratio :=
      if 0 < totalBorrowed then some (totalDeposited / totalBorrowed) else none
    unique_assets := if env.hasAssetCol then (uniqueFirst assets).length else 1
    asset_concentration :=
      if env.hasAssetCol then
        if assets.isEmpty then 0 else (modeCount assets : ℚ) / (n : ℚ)
      else 1
    asset_diversity_score :=
      if env.hasAssetCol then
        if assets.isEmpty then 0 else 1 - (modeCount assets : ℚ) / (n : ℚ)
      else 0
    position_changes := deposits.length + withdrawals.length
    deposit_withdrawal_ratio :=
      if 0 < withdrawals.length then
        some ((deposits.length : ℚ) / (withdrawals.length : ℚ))
      else none
    account_age_days := accountAge
    transactions_per_day := if 0 < accountAge then (n : ℚ) / (accountAge : ℚ) else 0
    days_since_last_activity := timedeltaDays now lastTx
    weekly_activity_variance :=
      if 1 < weeklyCounts.length then (sampleVar weeklyCounts).getD 0 else 0
    monthly_activity_variance :=
      if 1 < monthlyCounts.length then (sampleVar monthlyCounts).getD 0 else 0
    time_regularity_score :=
      if 2 < n then
        if 0 < timeDiffs.length then
          let gapMean := timeDiffs.sum / (timeDiffs.length : ℚ)
          let cvTime := if 0 < gapMean then ((sampleStd timeDiffs).getD 0) / gapMean else 0
          1 / (cvTime + 1 / 100)
        else 0
      else 0
    most_common_interval_ratio :=
      if 2 < n then
        if 0 < timeDiffs.length then
          if timeDiffs.isEmpty then 0
          else (modeCount timeDiffs : ℚ) / (timeDiffs.length : ℚ)
        else 0
      else 0
    amount_uniformity_score :=
      if amounts.isEmpty then 0 else (modeCount amounts : ℚ) / (n : ℚ)
    gas_optimization_score :=
      if env.hasGasCol then
        if gasVals.isEmpty then 0 else (modeCount gasVals : ℚ) / (n : ℚ)
      else 0
    transaction_complexity :=
      if 0 < n then ((uniqueFirst (data.map Event.action)).length : ℚ) / (n : ℚ) else 0 }

/-- Embeds `FeatureEngineer.engineer_features` (`feature_engineer.py` lines 17-40):
one feature record per distinct wallet address, in order of first
appearance (`df['wallet_address'].unique()`). -/
def engineerFeatures (env : Env) (now : ℚ) (df : List Event) :
    List (String × FeatureRecord) :=
  (uniqueFirst (df.map Event.wallet)).map (fun w =>
    (w, extractWalletFeatures env now (df.filter (fun e => e.wallet = w))))

/-- Embeds `WalletScorer._assign_risk_category` (`scorer.py` lines 89-104). -/
def assignRiskCategory (score : ℚ) : String :=
  if 900 ≤ score then "Excellent"
  else if 800 ≤ score then "Very Good"
  else if 700 ≤ score then "Good"
  else if 600 ≤ score then "Fair"
  else if 500 ≤ score then "Poor"
  else if 400 ≤ score then "Very Poor"
  else "Unacceptable"

/-- Embeds `WalletScorer.score_wallets` (`scorer.py` lines 17-52).  Each input row
is `(wallet_address, feature vector)`.  The preprocessing pipeline
(inf-replacement, median fill, saved scaler and feature selector) composed
with `model.predict` is the external Learner collaborator, abstracted as
`predict`, mapping the population's feature rows to one raw score per row.
Output rows are `(wallet_address, credit_score, risk_category)`, sorted by
score descending (`sort_values('credit_score', ascending=False)`; the sort
algorithm only permutes rows, modelled by insertion sort). -/
def scoreWallets (predict : List (List ℚ) → List ℚ)
    (rows : List (String × List ℚ)) : Option (List (String × ℚ × String)) :=
  let walletAddresses := rows.map Prod.fst
  let rawScores := predict (rows.map Prod.snd)
  (calibrateScores rawScores).map (fun calibrated =>
    let results := (walletAddresses.zip calibrated).map
      (fun p => (p.1, p.2, assignRiskCategory p.2))
    results.insertionSort (fun a b => b.2.1 ≤ a.2.1))

/-!  ## Synthetic Target Generator (`src/model_trainer.py`)  -/

/-- Embeds `ModelTrainer._create_synthetic_targets` (`model_trainer.py` lines
76-121): neutral baseline 500, the fixed positive factor table
`(repayment_ratio, +200, 1.0), (asset_diversity_score, +100, 1.0),
(account_age_days, +150, 365), (transaction_complexity, +50, 0.5)`, the
fixed negative factor table `(liquidation_ratio, -300, 0.1),
(leverage_ratio, -200, 10.0), (time_regularity_score, -100, 5.0),
(amount_uniformity_score, -150, 0.8)`, each contribution clipped to [0,1]
after division by its divisor and then weighted; finally the random draw
`np.random.normal(0, 25, n)` — modelled as the explicit realization
`noise` — is added and the result clipped to [0, 1000].  The source's
`fillna(0)` is the identity here since every factor field is total. -/
def createSyntheticTargets (noise : ℕ → ℚ) (features : List FeatureRecord) :
    List ℚ :=
  features.enum.map (fun p =>
    let f := p.2
    let base : ℚ := 500
    let pos :=
      npClip (f.repayment_ratio / 1) 0 1 * 200
      + npClip (f.asset_diversity_score / 1) 0 1 * 100
      + npClip ((f.account_age_days : ℚ) / 365) 0 1 * 150
      + npClip (f.transaction_complexity / (1 / 2)) 0 1 * 50
    let neg :=
      npClip (f.liquidation_ratio / (1 / 10)) 0 1 * (-300)
      + npClip (f.leverage_ratio / 10) 0 1 * (-200)
      + npClip (f.time_regularity_score / 5) 0 1 * (-100)
      + npClip (f.amount_uniformity_score / (4 / 5)) 0 1 * (-150)
    npClip (base + pos + neg + noise p.1) 0 1000)

/-!  ## Spec-side definitions  -/

/-- Modelled from the spec: the claimed regularity formula "1 /
(coefficient-of-variation-of-inter-event-gaps + 0.01)" applied to any
sequence with at least 2 events, with the coefficient of variation taken
with the source's own conventions (sample standard deviation of the
inter-event gaps over their mean); `none` where those statistics are
undefined (`NaN`). -/
def specRegularityScore (data : List Event) : Option ℚ :=
  let ts := ((data.insertionSort (fun a b => a.timestamp ≤ b.timestamp)).map
    Event.timestamp)
  let gaps := gapsOf ts
  match sampleStd gaps, meanQ gaps with
  | some sd, some m => some (1 / (sd / m + 1 / 100))
  | _, _ => none

/-!  ## Concrete sample inputs (used by witnesses and counterexamples)  -/

/-- A concrete frame context: epoch-day / epoch-week / approximate-month
calendar, `asset` column present, `gas_used` column absent. -/
def env0 : Env :=
  ⟨fun t => Rat.floor (t / 86400), fun t => Rat.floor (t / 604800),
   fun t => Rat.floor (t / 2592000), true, false⟩

/-- A concrete event row. -/
def mkEvent (w a : String) (amt t : ℚ) : Event :=
  ⟨w, a, amt, t, Rat.floor (t / 3600) % 24, "USDC", 0⟩

/-- A concrete feature record: the extractor run on a one-event account. -/
def sampleRecord : FeatureRecord :=
  extractWalletFeatures env0 0 [mkEvent "w1" "deposit" 1000 0]

/-- Concrete account with deposits and repays but no borrow event. -/
def noBorrowData : List Event :=
  [mkEvent "w1" "deposit" 100 0, mkEvent "w1" "repay" 50 3600]

/-- Concrete one-event account. -/
def singleEventData : List Event := [mkEvent "w1" "deposit" 1000 0]

/-- Concrete three-event account spanning three distinct days. -/
def threeEventData : List Event :=
  [mkEvent "w1" "deposit" 100 0, mkEvent "w1" "borrow" 60 100000,
   mkEvent "w1" "repay" 50 200000]

/-- Concrete two-event account. -/
def twoEventData : List Event :=
  [mkEvent "w1" "deposit" 100 0, mkEvent "w1" "borrow" 50 100]

/-- Concrete two-wallet transaction frame. -/
def twoWalletDf : List Event :=
  [mkEvent "wa" "deposit" 10 0, mkEvent "wb" "deposit" 20 100,
   mkEvent "wa" "repay" 5 200]

/-- Concrete two-account scorer input. -/
def scoreRows : List (String × List ℚ) := [("wa", [1]), ("wb", [2])]

/-!  ## Basic lemmas  -/

theorem npClip_le (x lo hi : ℚ) : npClip x lo hi ≤ hi :=
  min_le_right _ _

theorem le_npClip (x lo hi : ℚ) (h : lo ≤ hi) : lo ≤ npClip x lo hi :=
  le_min (le_max_right x lo) h

theorem mem_uniqueFirstAux {α : Type} [DecidableEq α] (a : α) :
    ∀ (l seen : List α), a ∈ uniqueFirstAux seen l ↔ a ∈ l ∧ a ∉ seen
  | [], seen => by simp [uniqueFirstAux]
  | x :: xs, seen => by
    rw [uniqueFirstAux]
    split_ifs with hx
    · rw [mem_uniqueFirstAux a xs seen]
      by_cases hax : a = x
      · subst hax; simp [hx]
      · simp [hax]
    · simp only [List.mem_cons, mem_uniqueFirstAux a xs (x :: seen)]
      by_cases hax : a = x
      · subst hax; simp [hx]
      · simp only [hax, false_or]

theorem mem_uniqueFirst {α : Type} [DecidableEq α] (a : α) (l : List α) :
    a ∈ uniqueFirst l ↔ a ∈ l := by
  rw [uniqueFirst, mem_uniqueFirstAux]
  simp

theorem nodup_uniqueFirstAux {α : Type} [DecidableEq α] :
    ∀ (l seen : List α), (uniqueFirstAux seen l).Nodup
  | [], seen => List.nodup_nil
  | x :: xs, seen => by
    rw [uniqueFirstAux]
    split_ifs with hx
    · exact nodup_uniqueFirstAux xs seen
    · refine List.nodup_cons.mpr ⟨?_, nodup_uniqueFirstAux xs (x :: seen)⟩
      intro hmem
      exact ((mem_uniqueFirstAux x xs (x :: seen)).mp hmem).2 (List.mem_cons_self x seen)

theorem nodup_uniqueFirst {α : Type} [DecidableEq α] (l : List α) :
    (uniqueFirst l).Nodup :=
  nodup_uniqueFirstAux l []

theorem length_gapsOf (ts : List ℚ) : (gapsOf ts).length = ts.length - 1 := by
  simp [gapsOf]

theorem minQ_ne_none (l : List ℚ) (h : l ≠ []) : minQ l ≠ none := by
  cases l with
  | nil => exact absurd rfl h
  | cons x xs => cases hm : minQ xs <;> simp [minQ, hm]

theorem maxQ_ne_none (l : List ℚ) (h : l ≠ []) : maxQ l ≠ none := by
  cases l with
  | nil => exact absurd rfl h
  | cons x xs => cases hm : maxQ xs <;> simp [maxQ, hm]

theorem sampleVar_ne_none (l : List ℚ) (h : 2 ≤ l.length) : sampleVar l ≠ none := by
  rw [sampleVar, if_neg (Nat.not_lt.mpr h)]
  simp

theorem sampleStd_ne_none (l : List ℚ) (h : 2 ≤ l.length) : sampleStd l ≠ none := by
  rw [sampleStd]
  simp [Option.map_eq_none', sampleVar_ne_none l h]

theorem getD_sorted_mono (s : List ℚ) (hs : s.Sorted (· ≤ ·)) {i j : ℕ}
    (hij : i ≤ j) (hj : j < s.length) : s.getD i 0 ≤ s.getD j 0 := by
  have hi : i < s.length := lt_of_le_of_lt hij hj
  rw [List.getD_eq_getElem s 0 hi, List.getD_eq_getElem s 0 hj]
  rcases Nat.lt_or_ge i j with hlt | hge
  · exact List.pairwise_iff_getElem.mp hs i j hi hj hlt
  · have hij' : i = j := le_antisymm hij hge
    subst hij'
    exact le_refl _

theorem interp_mono (s : List ℚ) (hs : s.Sorted (· ≤ ·)) (n : ℕ)
    (hlen : s.length = n) (h₁ h₂ : ℚ) (h0 : 0 ≤ h₁) (h12 : h₁ ≤ h₂)
    (htop : h₂ ≤ (n : ℚ) - 1) :
    s.getD (Rat.floor h₁).toNat 0
      + (h₁ - ((Rat.floor h₁).toNat : ℚ))
        * (s.getD (-Rat.floor (-h₁)).toNat 0 - s.getD (Rat.floor h₁).toNat 0)
    ≤ s.getD (Rat.floor h₂).toNat 0
      + (h₂ - ((Rat.floor h₂).toNat : ℚ))
        * (s.getD (-Rat.floor (-h₂)).toNat 0 - s.getD (Rat.floor h₂).toNat 0) := by
  have hfl : ∀ x : ℚ, Rat.floor x = ⌊x⌋ := fun _ => rfl
  have hce : ∀ x : ℚ, -Rat.floor (-x) = ⌈x⌉ := fun _ => rfl
  rw [hfl h₁, hfl h₂, hce h₁, hce h₂]
  have h02 : 0 ≤ h₂ := le_trans h0 h12
  have hn1 : 1 ≤ n := by
    by_contra hc
    have : n = 0 := by omega
    subst this
    simp only [Nat.cast_zero] at htop
    linarith
  -- nonnegativity of the four indices
  have hfl1 : (0 : ℤ) ≤ ⌊h₁⌋ := Int.floor_nonneg.mpr h0
  have hfl2 : (0 : ℤ) ≤ ⌊h₂⌋ := Int.floor_nonneg.mpr h02
  have hce1 : (0 : ℤ) ≤ ⌈h₁⌉ := Int.ceil_nonneg h0
  have hce2 : (0 : ℤ) ≤ ⌈h₂⌉ := Int.ceil_nonneg h02
  -- ceilings stay below n - 1
  have htopZ : ⌈h₂⌉ ≤ (n : ℤ) - 1 := by
    have : ⌈h₂⌉ ≤ ⌈(((n : ℤ) - 1 : ℤ) : ℚ)⌉ :=
      Int.ceil_le_ceil (by push_cast; linarith)
    rwa [Int.ceil_intCast] at this
  have hce12 : ⌈h₁⌉ ≤ ⌈h₂⌉ := Int.ceil_le_ceil h12
  have hfl12 : ⌊h₁⌋ ≤ ⌊h₂⌋ := Int.floor_le_floor h12
  have hflce1 : ⌊h₁⌋ ≤ ⌈h₁⌉ := Int.floor_le_ceil _
  have hflce2 : ⌊h₂⌋ ≤ ⌈h₂⌉ := Int.floor_le_ceil _
  -- the ℕ indices and their bounds inside s
  have hj1 : (⌈h₁⌉).toNat < s.length := by rw [hlen]; omega
  have hj2 : (⌈h₂⌉).toNat < s.length := by rw [hlen]; omega
  have hi1 : (⌊h₁⌋).toNat < s.length := by rw [hlen]; omega
  have hi2 : (⌊h₂⌋).toNat < s.length := by rw [hlen]; omega
  -- index casts back to ℚ
  have hcast1 : (((⌊h₁⌋).toNat : ℕ) : ℚ) = ((⌊h₁⌋ : ℤ) : ℚ) := by
    exact_mod_cast congrArg (fun z : ℤ => (z : ℚ)) (Int.toNat_of_nonneg hfl1)
  have hcast2 : (((⌊h₂⌋).toNat : ℕ) : ℚ) = ((⌊h₂⌋ : ℤ) : ℚ) := by
    exact_mod_cast congrArg (fun z : ℤ => (z : ℚ)) (Int.toNat_of_nonneg hfl2)
  -- fractional parts in [0, 1)
  have hfr1lo : 0 ≤ h₁ - (((⌊h₁⌋).toNat : ℕ) : ℚ) := by
    rw [hcast1]; linarith [Int.floor_le h₁]
  have hfr1hi : h₁ - (((⌊h₁⌋).toNat : ℕ) : ℚ) < 1 := by
    rw [hcast1]; linarith [Int.lt_floor_add_one h₁]
  have hfr2lo : 0 ≤ h₂ - (((⌊h₂⌋).toNat : ℕ) : ℚ) := by
    rw [hcast2]; linarith [Int.floor_le h₂]
  -- sorted-list value comparisons
  have hAB1 : s.getD (⌊h₁⌋).toNat 0 ≤ s.getD (⌈h₁⌉).toNat 0 :=
    getD_sorted_mono s hs (by omega) hj1
  have hAB2 : s.getD (⌊h₂⌋).toNat 0 ≤ s.getD (⌈h₂⌉).toNat 0 :=
    getD_sorted_mono s hs (by omega) hj2
  rcases le_or_lt (⌈h₁⌉) (⌊h₂⌋) with hc | hc
  · -- the two interpolation windows are disjoint (or touch):
    -- v₁ ≤ s[⌈h₁⌉] ≤ s[⌊h₂⌋] ≤ v₂
    have hmid : s.getD (⌈h₁⌉).toNat 0 ≤ s.getD (⌊h₂⌋).toNat 0 :=
      getD_sorted_mono s hs (by omega) hi2
    nlinarith [mul_nonneg hfr2lo (sub_nonneg.mpr hAB2),
      mul_nonneg (le_of_lt (sub_pos.mpr hfr1hi)) (sub_nonneg.mpr hAB1)]
  · -- same floor window
    have hffeq : ⌊h₁⌋ = ⌊h₂⌋ := by
      have := Int.ceil_le_floor_add_one h₁
      omega
    rcases eq_or_lt_of_le (Int.floor_le h₁) with hint | hint
    · -- h₁ is an integer: v₁ = s[⌊h₁⌋] = s[⌊h₂⌋] ≤ v₂
      have hfr1z : h₁ - (((⌊h₁⌋).toNat : ℕ) : ℚ) = 0 := by
        rw [hcast1]; linarith
      rw [hfr1z, hffeq]
      nlinarith [mul_nonneg hfr2lo (sub_nonneg.mpr hAB2)]
    · -- both fractional parts positive: same floor and same ceiling
      have hciel1 : ⌈h₁⌉ = ⌊h₁⌋ + 1 := by
        have hlow : ⌊h₁⌋ < ⌈h₁⌉ := Int.lt_ceil.mpr hint
        have := Int.ceil_le_floor_add_one h₁
        omega
      have hciel2 : ⌈h₂⌉ = ⌊h₂⌋ + 1 := by
        have hint2 : ((⌊h₂⌋ : ℤ) : ℚ) < h₂ := by
          rw [← hffeq]; linarith
        have hlow : ⌊h₂⌋ < ⌈h₂⌉ := Int.lt_ceil.mpr hint2
        have := Int.ceil_le_floor_add_one h₂
        omega
      have hjeq : (⌈h₁⌉).toNat = (⌈h₂⌉).toNat := by omega
      rw [hffeq, hjeq] at *
      nlinarith [mul_nonneg (sub_nonneg.mpr (by rw [hcast2, ← hffeq, hcast1.symm] at *; linarith : h₁ - (((⌊h₂⌋).toNat : ℕ) : ℚ) ≤ h₂ - (((⌊h₂⌋).toNat : ℕ) : ℚ))) (sub_nonneg.mpr hAB2)]

theorem npPercentile_mono (xs : List ℚ) (hne : xs ≠ []) {q q' : ℕ}
    (hqq : q ≤ q') (hq' : q' ≤ 100) :
    npPercentile xs q ≤ npPercentile xs q' := by
  have hn : 1 ≤ xs.length := List.length_pos.mpr hne
  have hN0 : (0 : ℚ) ≤ (xs.length : ℚ) - 1 := by
    have : (1 : ℚ) ≤ (xs.length : ℚ) := by exact_mod_cast hn
    linarith
  simp only [npPercentile]
  apply interp_mono _ (List.sorted_insertionSort _ _) xs.length
    (List.length_insertionSort _ _)
  · positivity
  · apply div_le_div_of_nonneg_right ?_ (by norm_num)
    · exact mul_le_mul_of_nonneg_right (by exact_mod_cast hqq) hN0
  · rw [div_le_iff₀ (by norm_num : (0:ℚ) < 100)]
    have hq'Q : (q' : ℚ) ≤ 100 := by exact_mod_cast hq'
    nlinarith

theorem sorted_percentileBreakpoints (xs : List ℚ) (hne : xs ≠ []) :
    (percentileBreakpoints xs).Sorted (· ≤ ·) := by
  rw [percentileBreakpoints, List.Sorted, List.pairwise_map]
  apply List.pairwise_iff_getElem.mpr
  intro i j hi hj hij
  rw [List.length_range] at hi hj
  rw [List.getElem_range, List.getElem_range]
  exact npPercentile_mono xs hne (le_of_lt hij) (by omega)

/-!  ## Claim theorems  -/

/-- C1: for every non-empty population of raw scalar scores, the
calibrator computes each account's percentile rank by a search over the
101 percentile breakpoints (0 to 100 inclusive), which do form a sorted
list, maps the rank linearly onto [0, 1000] and clips, so calibration
succeeds, yields one score per account, and every calibrated score lies
in [0, 1000]. -/
theorem calibrated_scores_bounded (raw : List ℚ) (h : raw ≠ []) :
    ∃ out, calibrateScores raw = some out
      ∧ out.length = raw.length
      ∧ (percentileBreakpoints raw).length = 101
      ∧ (percentileBreakpoints raw).Sorted (· ≤ ·)
      ∧ ∀ s ∈ out, 0 ≤ s ∧ s ≤ 1000 := by
  rw [calibrateScores, List.isEmpty_eq_false.mpr h]
  refine ⟨_, rfl, List.length_map _ _, by simp [percentileBreakpoints],
    sorted_percentileBreakpoints raw h, ?_⟩
  intro s hs
  simp only [List.mem_map] at hs
  obtain ⟨x, -, rfl⟩ := hs
  exact ⟨le_npClip _ _ _ (by norm_num), npClip_le _ _ _⟩

/-- C1 witness: the calibrator on the concrete population [3, 1, 2]. -/
theorem calibrated_scores_bounded_witness :
    ∃ out, calibrateScores [3, 1, 2] = some out
      ∧ out.length = ([3, 1, 2] : List ℚ).length
      ∧ (percentileBreakpoints [3, 1, 2]).length = 101
      ∧ (percentileBreakpoints [3, 1, 2]).Sorted (· ≤ ·)
      ∧ ∀ s ∈ out, 0 ≤ s ∧ s ≤ 1000 :=
  calibrated_scores_bounded [3, 1, 2] (by decide)

/-- C7: on a degenerate population (all raw scores identical) the
calibrator still succeeds and hands every account the same valid clipped
score in [0, 1000]. -/
theorem calibrate_degenerate (v : ℚ) (raw : List ℚ) (h : raw ≠ [])
    (hv : ∀ x ∈ raw, x = v) :
    ∃ out, calibrateScores raw = some out
      ∧ out.length = raw.length
      ∧ (∀ s ∈ out, 0 ≤ s ∧ s ≤ 1000)
      ∧ ∀ s ∈ out, ∀ t ∈ out, s = t := by
  rw [calibrateScores, List.isEmpty_eq_false.mpr h]
  refine ⟨_, rfl, List.length_map _ _, ?_, ?_⟩
  · intro s hs
    simp only [List.mem_map] at hs
    obtain ⟨x, -, rfl⟩ := hs
    exact ⟨le_npClip _ _ _ (by norm_num), npClip_le _ _ _⟩
  · intro s hs t ht
    simp only [List.mem_map] at hs ht
    obtain ⟨x, hx, rfl⟩ := hs
    obtain ⟨y, hy, rfl⟩ := ht
    rw [hv x hx, hv y hy]

/-- C7 witness: the degenerate population [7, 7, 7]. -/
theorem calibrate_degenerate_witness :
    ∃ out, calibrateScores [7, 7, 7] = some out
      ∧ out.length = ([7, 7, 7] : List ℚ).length
      ∧ (∀ s ∈ out, 0 ≤ s ∧ s ≤ 1000)
      ∧ ∀ s ∈ out, ∀ t ∈ out, s = t :=
  calibrate_degenerate 7 [7, 7, 7] (by decide) (by decide)

/-- C8 counterexample: on the empty population the Synthetic Target
Generator does not fail fast — it returns an empty target set (all its
array operations are total on zero rows), contrary to the claim. -/
theorem empty_population_counterexample :
    createSyntheticTargets (fun _ => 0) [] = [] := rfl

/-- C8 amended: on an empty population, score calibration fails fast with
an error (`np.percentile` aborts on zero samples, modelled as `none`),
while synthetic target generation does not fail: it returns an empty
target set. -/
theorem empty_population_amended :
    calibrateScores [] = none
    ∧ ∀ noise : ℕ → ℚ, createSyntheticTargets noise [] = [] :=
  ⟨rfl, fun _ => rfl⟩

/-- C10: every synthetic target lies in [0, 1000], whatever the feature
population and whatever the realization of the random noise, because the
final value is clipped to [0, 1000]. -/
theorem synthetic_targets_bounded (noise : ℕ → ℚ) (features : List FeatureRecord) :
    ∀ s ∈ createSyntheticTargets noise features, 0 ≤ s ∧ s ≤ 1000 := by
  intro s hs
  simp only [createSyntheticTargets, List.mem_map] at hs
  obtain ⟨p, -, rfl⟩ := hs
  exact ⟨le_npClip _ _ _ (by norm_num), npClip_le _ _ _⟩

/-- C10 witness: the single synthetic target of the concrete one-record
population, with zero noise, is within bounds. -/
theorem synthetic_targets_bounded_witness :
    0 ≤ (createSyntheticTargets (fun _ => 0) [sampleRecord]).headD 0
    ∧ (createSyntheticTargets (fun _ => 0) [sampleRecord]).headD 0 ≤ 1000 :=
  synthetic_targets_bounded (fun _ => 0) [sampleRecord] _ (by decide)

/-- C5: risk tier assignment is the fixed inclusive-lower-bound threshold
ladder, each score falling in exactly one tier (the seven tiers partition
the line, hence [0, 1000], with no gaps or overlaps), and the seven quoted
examples map to their quoted tiers. -/
theorem risk_tier_ladder :
    (∀ s : ℚ,
      (assignRiskCategory s = "Excellent" ↔ 900 ≤ s)
      ∧ (assignRiskCategory s = "Very Good" ↔ 800 ≤ s ∧ s < 900)
      ∧ (assignRiskCategory s = "Good" ↔ 700 ≤ s ∧ s < 800)
      ∧ (assignRiskCategory s = "Fair" ↔ 600 ≤ s ∧ s < 700)
      ∧ (assignRiskCategory s = "Poor" ↔ 500 ≤ s ∧ s < 600)
      ∧ (assignRiskCategory s = "Very Poor" ↔ 400 ≤ s ∧ s < 500)
      ∧ (assignRiskCategory s = "Unacceptable" ↔ s < 400))
    ∧ assignRiskCategory 950 = "Excellent"
    ∧ assignRiskCategory 850 = "Very Good"
    ∧ assignRiskCategory 750 = "Good"
    ∧ assignRiskCategory 650 = "Fair"
    ∧ assignRiskCategory 550 = "Poor"
    ∧ assignRiskCategory 450 = "Very Poor"
    ∧ assignRiskCategory 100 = "Unacceptable" := by
  refine ⟨fun s => ?_, by decide, by decide, by decide, by decide, by decide,
    by decide, by decide⟩
  simp only [assignRiskCategory]
  split_ifs with h1 h2 h3 h4 h5 h6 <;>
    push_neg at * <;>
    refine ⟨?_, ?_, ?_, ?_, ?_, ?_, ?_⟩ <;>
    first
      | exact iff_of_true rfl (by first | linarith | constructor <;> linarith)
      | exact iff_of_false (by decide) (by intro hc; linarith [hc])

/-- C6: for every account event sequence with zero borrow events, the
extractor yields repayment ratio exactly 1.0 (full credit) and leverage
ratio exactly 0.0, whatever the deposit and repay activity. -/
theorem no_borrow_defaults (env : Env) (now : ℚ) (data : List Event)
    (h : ∀ e ∈ data, e.action ≠ "borrow") :
    (extractWalletFeatures env now data).repayment_ratio = 1
    ∧ (extractWalletFeatures env now data).leverage_ratio = 0 := by
  have hb : data.filter (fun e => e.action = "borrow") = [] :=
    List.filter_eq_nil_iff.mpr (fun a ha => by simp [h a ha])
  constructor
  · show (if 0 < ((data.filter (fun e => e.action = "borrow")).map Event.amount).sum
        then ((data.filter (fun e => e.action = "repay")).map Event.amount).sum /
          ((data.filter (fun e => e.action = "borrow")).map Event.amount).sum
        else 1) = 1
    rw [hb]
    simp
  · show (if 0 < ((data.filter (fun e => e.action = "deposit")).map Event.amount).sum
        then ((data.filter (fun e => e.action = "borrow")).map Event.amount).sum /
          ((data.filter (fun e => e.action = "deposit")).map Event.amount).sum
        else 0) = 0
    rw [hb]
    split_ifs <;> simp

/-- C6 witness: the concrete borrow-free account. -/
theorem no_borrow_defaults_witness :
    (extractWalletFeatures env0 0 noBorrowData).repayment_ratio = 1
    ∧ (extractWalletFeatures env0 0 noBorrowData).leverage_ratio = 0 :=
  no_borrow_defaults env0 0 noBorrowData (by decide)

/-- C3: with the evaluation instant an explicit parameter, the extractor
is a pure deterministic function of the event sequence — equal inputs give
equal records — and the evaluation instant influences nothing but the
`days_since_last_activity` field: records for any two instants agree once
that single field is overwritten. -/
theorem extractor_deterministic (env : Env) (data : List Event) :
    (∀ now : ℚ,
      extractWalletFeatures env now data = extractWalletFeatures env now data)
    ∧ ∀ now₁ now₂ : ℚ,
      { extractWalletFeatures env now₁ data with days_since_last_activity := 0 }
        = { extractWalletFeatures env now₂ data with days_since_last_activity := 0 } :=
  ⟨fun _ => rfl, fun _ _ => rfl⟩

/-- C2 counterexample: on a one-event account the amount standard
deviation (`pandas.Series.std`, sample deviation with `ddof = 1`) is NaN,
and with it the amount coefficient of variation and the single-day
activity consistency — so not every non-sentinel feature value is a finite
number, contrary to the claim. -/
theorem single_event_nan_counterexample :
    (extractWalletFeatures env0 0 singleEventData).std_amount = none
    ∧ (extractWalletFeatures env0 0 singleEventData).amount_cv = none
    ∧ (extractWalletFeatures env0 0 singleEventData).activity_consistency = none := by
  decide

/-- C2 amended: every enumerated feature key is present (the record type
is fixed-schema by construction) and every value is finite except the
sentineled "infinite" fields and except the sample-deviation-based fields
on accounts with too few samples: for a non-empty sequence the amount
mean/median/min/max are defined, `std_amount` and `amount_cv` are defined
once the account has at least 2 events, `std_time_between_transactions`
whenever the account does not have exactly 2 events, and
`activity_consistency` once at least 2 distinct active days exist. -/
theorem feature_record_defaults_amended (env : Env) (now : ℚ) (data : List Event)
    (h : data ≠ []) :
    (extractWalletFeatures env now data).avg_amount ≠ none
    ∧ (extractWalletFeatures env now data).median_amount ≠ none
    ∧ (extractWalletFeatures env now data).min_amount ≠ none
    ∧ (extractWalletFeatures env now data).max_amount ≠ none
    ∧ (2 ≤ data.length →
        (extractWalletFeatures env now data).std_amount ≠ none
        ∧ (extractWalletFeatures env now data).amount_cv ≠ none)
    ∧ (data.length ≠ 2 →
        (extractWalletFeatures env now data).std_time_between_transactions ≠ none)
    ∧ (2 ≤ (uniqueFirst (data.map (fun e => env.dateOf e.timestamp))).length →
        (extractWalletFeatures env now data).activity_consistency ≠ none) := by
  have hm : data.map Event.amount ≠ [] := fun hc => h (List.map_eq_nil_iff.mp hc)
  refine ⟨?_, ?_, ?_, ?_, ?_, ?_, ?_⟩
  · show meanQ (data.map Event.amount) ≠ none
    rw [meanQ, List.isEmpty_eq_false.mpr hm]
    simp
  · show medianQ (data.map Event.amount) ≠ none
    rw [medianQ, List.isEmpty_eq_false.mpr hm]
    simp only [Bool.false_eq_true, if_false]
    split_ifs <;> simp
  · exact minQ_ne_none _ hm
  · exact maxQ_ne_none _ hm
  · intro h2
    have hlen : 2 ≤ (data.map Event.amount).length := by
      rwa [List.length_map]
    constructor
    · exact sampleStd_ne_none _ hlen
    · show (if 0 < (data.map Event.amount).sum / ((data.length : ℚ))
          then (sampleStd (data.map Event.amount)).map
            (fun s => s / ((data.map Event.amount).sum / ((data.length : ℚ))))
          else some 0) ≠ none
      split_ifs
      · simp [Option.map_eq_none', sampleStd_ne_none _ hlen]
      · simp
  · intro hn2
    show (if 1 < data.length
        then sampleStd (gapsOf
          ((data.insertionSort (fun a b => a.timestamp ≤ b.timestamp)).map
            Event.timestamp))
        else some 0) ≠ none
    split_ifs with h1
    · apply sampleStd_ne_none
      rw [length_gapsOf, List.length_map, List.length_insertionSort]
      omega
    · simp
  · intro hdays
    show (sampleStd ((uniqueFirst (data.map (fun e => env.dateOf e.timestamp))).map
        (fun d => ((data.map (fun e => env.dateOf e.timestamp)).count d : ℚ)))).map
        (fun s => 1 / (s + 1)) ≠ none
    simp only [ne_eq, Option.map_eq_none']
    apply sampleStd_ne_none
    rwa [List.length_map]

/-- C2 amended witness: all defined-ness conclusions evaluated on the
concrete three-event account. -/
theorem feature_record_defaults_amended_witness :
    (extractWalletFeatures env0 0 threeEventData).avg_amount ≠ none
    ∧ (extractWalletFeatures env0 0 threeEventData).median_amount ≠ none
    ∧ (extractWalletFeatures env0 0 threeEventData).min_amount ≠ none
    ∧ (extractWalletFeatures env0 0 threeEventData).max_amount ≠ none
    ∧ (extractWalletFeatures env0 0 threeEventData).std_amount ≠ none
    ∧ (extractWalletFeatures env0 0 threeEventData).amount_cv ≠ none
    ∧ (extractWalletFeatures env0 0 threeEventData).std_time_between_transactions ≠ none
    ∧ (extractWalletFeatures env0 0 threeEventData).activity_consistency ≠ none := by
  obtain ⟨h1, h2, h3, h4, h5, h6, h7⟩ :=
    feature_record_defaults_amended env0 0 threeEventData (by decide)
  exact ⟨h1, h2, h3, h4, (h5 (by decide)).1, (h5 (by decide)).2,
    h6 (by decide), h7 (by decide)⟩

/-- C4 counterexample: the claim's boundary is wrong.  `twoEventData` has
(at least) 2 events, yet the code's regularity score is the else-branch 0
(the source guards with `len(data) > 2`, not `>= 2`), which is not the
claimed formula value 1/(cv + 0.01) — on one inter-event gap that formula
is not even a defined number (sample std of a single gap is NaN). -/
theorem regularity_two_events_counterexample :
    2 ≤ twoEventData.length
    ∧ (extractWalletFeatures env0 0 twoEventData).time_regularity_score = 0
    ∧ specRegularityScore twoEventData
        ≠ some ((extractWalletFeatures env0 0 twoEventData).time_regularity_score) := by
  decide

/-- C4 amended: for every sequence with at least 3 events the regularity
score equals 1 / (cv + 0.01) with cv the sample-std-over-mean of the
inter-event gaps when the mean gap is positive (0 otherwise); for every
sequence with at most 2 events the regularity score is 0. -/
theorem regularity_score_amended (env : Env) (now : ℚ) (data : List Event) :
    (2 < data.length →
      (extractWalletFeatures env now data).time_regularity_score =
        (let gaps := gapsOf
          ((data.insertionSort (fun a b => a.timestamp ≤ b.timestamp)).map
            Event.timestamp)
         let gapMean := gaps.sum / (gaps.length : ℚ)
         let cvTime := if 0 < gapMean then ((sampleStd gaps).getD 0) / gapMean else 0
         1 / (cvTime + 1 / 100)))
    ∧ (data.length ≤ 2 →
        (extractWalletFeatures env now data).time_regularity_score = 0) := by
  constructor
  · intro h3
    show (if 2 < data.length then
        if 0 < (gapsOf
            ((data.insertionSort (fun a b => a.timestamp ≤ b.timestamp)).map
              Event.timestamp)).length then
          (let gaps := gapsOf
            ((data.insertionSort (fun a b => a.timestamp ≤ b.timestamp)).map
              Event.timestamp)
           let gapMean := gaps.sum / (gaps.length : ℚ)
           let cvTime := if 0 < gapMean then ((sampleStd gaps).getD 0) / gapMean else 0
           1 / (cvTime + 1 / 100))
        else 0
      else 0) = _
    rw [if_pos h3, if_pos]
    rw [length_gapsOf, List.length_map, List.length_insertionSort]
    omega
  · intro h2
    show (if 2 < data.length then
        if 0 < (gapsOf
            ((data.insertionSort (fun a b => a.timestamp ≤ b.timestamp)).map
              Event.timestamp)).length then
          (let gaps := gapsOf
            ((data.insertionSort (fun a b => a.timestamp ≤ b.timestamp)).map
              Event.timestamp)
           let gapMean := gaps.sum / (gaps.length : ℚ)
           let cvTime := if 0 < gapMean then ((sampleStd gaps).getD 0) / gapMean else 0
           1 / (cvTime + 1 / 100))
        else 0
      else 0) = 0
    rw [if_neg (by omega)]

/-- C4 amended witness: the formula branch on the three-event account and
the zero branch on the two-event account. -/
theorem regularity_score_amended_witness :
    (extractWalletFeatures env0 0 threeEventData).time_regularity_score =
      (let gaps := gapsOf
        ((threeEventData.insertionSort (fun a b => a.timestamp ≤ b.timestamp)).map
          Event.timestamp)
       let gapMean := gaps.sum / (gaps.length : ℚ)
       let cvTime := if 0 < gapMean then ((sampleStd gaps).getD 0) / gapMean else 0
       1 / (cvTime + 1 / 100))
    ∧ (extractWalletFeatures env0 0 twoEventData).time_regularity_score = 0 :=
  ⟨(regularity_score_amended env0 0 threeEventData).1 (by decide),
   (regularity_score_amended env0 0 twoEventData).2 (by decide)⟩

/-- C9: no account is silently dropped or duplicated.  The Feature
Extractor emits exactly one feature record per distinct wallet address of
the input frame (first-appearance order, no duplicates, none missing), and
the scorer emits exactly one score record per input row — the multiset of
output addresses matches the input exactly. -/
theorem population_processed_once (env : Env) (now : ℚ) (df : List Event)
    (predict : List (List ℚ) → List ℚ) (rows : List (String × List ℚ))
    (hp : ∀ X, (predict X).length = X.length) (hr : rows ≠ []) :
    ((engineerFeatures env now df).map Prod.fst).Nodup
    ∧ (∀ w, w ∈ (engineerFeatures env now df).map Prod.fst ↔ w ∈ df.map Event.wallet)
    ∧ (∀ w ∈ df.map Event.wallet,
        ((engineerFeatures env now df).map Prod.fst).count w = 1)
    ∧ ∃ out, scoreWallets predict rows = some out
        ∧ out.length = rows.length
        ∧ ∀ a : String,
            (out.map (fun r => r.1)).count a = (rows.map Prod.fst).count a := by
  have hfst : (engineerFeatures env now df).map Prod.fst
      = uniqueFirst (df.map Event.wallet) := by
    rw [engineerFeatures, List.map_map]
    exact List.map_id' _
  have hraw : (predict (rows.map Prod.snd)).length = rows.length := by
    rw [hp, List.length_map]
  have hrne : predict (rows.map Prod.snd) ≠ [] := by
    intro hc
    rw [hc] at hraw
    exact hr (List.length_eq_zero.mp hraw.symm)
  refine ⟨?_, ?_, ?_, ?_⟩
  · rw [hfst]; exact nodup_uniqueFirst _
  · intro w
    rw [hfst]
    exact mem_uniqueFirst w _
  · intro w hw
    rw [hfst]
    exact List.count_eq_one_of_mem (nodup_uniqueFirst _)
      ((mem_uniqueFirst w _).mpr hw)
  · simp only [scoreWallets, calibrateScores, List.isEmpty_eq_false.mpr hrne,
      Bool.false_eq_true, if_false, Option.map_some']
    refine ⟨_, rfl, ?_, ?_⟩
    · rw [List.length_insertionSort, List.length_map, List.length_zip,
        List.length_map, List.length_map, hraw, Nat.min_self]
    · intro a
      rw [List.Perm.count_eq (List.Perm.map (fun r : String × ℚ × String => r.1)
        (List.perm_insertionSort _ _))]
      rw [List.map_map]
      have hcomp : ((fun r : String × ℚ × String => r.1)
          ∘ (fun p : String × ℚ => (p.1, p.2, assignRiskCategory p.2)))
          = (Prod.fst : String × ℚ → String) := rfl
      rw [hcomp, List.map_fst_zip _ _ (by simp [hraw])]

/-- C9 witness: the two-wallet frame and two-row scorer input, with the
constant-score Learner. -/
theorem population_processed_once_witness :
    ((engineerFeatures env0 0 twoWalletDf).map Prod.fst).Nodup
    ∧ (∀ w, w ∈ (engineerFeatures env0 0 twoWalletDf).map Prod.fst
        ↔ w ∈ twoWalletDf.map Event.wallet)
    ∧ (∀ w ∈ twoWalletDf.map Event.wallet,
        ((engineerFeatures env0 0 twoWalletDf).map Prod.fst).count w = 1)
    ∧ ∃ out, scoreWallets (fun X => X.map (fun _ => 1)) scoreRows = some out
        ∧ out.length = scoreRows.length
        ∧ ∀ a : String,
            (out.map (fun r => r.1)).count a = (scoreRows.map Prod.fst).count a :=
  population_processed_once env0 0 twoWalletDf (fun X => X.map (fun _ => 1))
    scoreRows (fun X => by simp) (by decide)

end DefiCredit
